import Mathlib

/-!
# gohttpoison: the JSON request helper and its body logging

A shallow embedding of `client.go` and `request.go`.

* A Go `string` / `[]byte` is a sequence of bytes (`Bytes`); `len` is the byte count and
  `s[0:n]` is a byte slice that panics when `n` is out of range.
* A Go `map[string][]string` is an association list with distinct keys (`Values`);
  a nil map is `none`.
* `encoding/json`, `net/http` request validation, the transport and the response body
  stream are given by a `Platform`; the client code itself is `HTTPClient.Request`.
* The effects of a call are recorded as a list of `Event`s, and the caller's request
  object after the call is returned next to the outcome.
-/

namespace gohttpoison

/-- A Go string or byte slice: its bytes, each a number below 256. -/
abbrev Bytes := List Nat

/-- The contents of a Go `map[string][]string` (keys are distinct). -/
abbrev Values := List (Bytes × List Bytes)

/-- UTF-8 encoding of one Unicode scalar value (what a Go string stores for it). -/
def encodeRune (c : Char) : Bytes :=
  let n := c.toNat
  if n < 0x80 then [n]
  else if n < 0x800 then [0xC0 + n / 64, 0x80 + n % 64]
  else if n < 0x10000 then [0xE0 + n / 4096, 0x80 + n / 64 % 64, 0x80 + n % 64]
  else [0xF0 + n / 262144, 0x80 + n / 4096 % 64, 0x80 + n / 64 % 64, 0x80 + n % 64]

/-- The bytes of the Go string holding the text `s`. -/
def utf8 (s : List Char) : Bytes :=
  s.flatMap encodeRune

/-- A Go string literal. -/
def str (s : String) : Bytes :=
  utf8 s.toList

/-! ## request.go -/

/-- The struct `Request` of request.go; `Body` is the `interface{}` payload, `none` is nil. -/
structure Request (β : Type) where
  Method : Bytes
  URL : Bytes
  Body : Option β
  Headers : Option Values
  Params : Option Values
  LogRequestBody : Bool
  LogResponseBody : Bool

/-- The struct `Response`; `Request` is the pointer to the caller's request. -/
structure Response where
  StatusCode : Int
  Body : Bytes
  Headers : Values
  Request : Nat
deriving DecidableEq, Repr

/-! ## The platform: encoding/json, net/url and net/http -/

/-- The fields of `url.URL` the client touches or passes on. -/
structure URL where
  Scheme : Bytes
  Host : Bytes
  Path : Bytes
  RawQuery : Bytes
deriving DecidableEq, Repr

/-- The request handed to `http.Client.Do`, with the contents of its header map. -/
structure HTTPRequest where
  Method : Bytes
  URL : URL
  Header : Values
  Body : Option Bytes
deriving DecidableEq, Repr

/-- The stream `resp.Body`: what `ioutil.ReadAll` and `Close` return on it. -/
structure BodyStream where
  ReadAll : Except String Bytes
  Close : Option String

/-- The `*http.Response` returned by the transport. -/
structure HTTPResponse where
  StatusCode : Int
  Header : Values
  Body : BodyStream

/-- What `http.NewRequest` derives from its method and URL arguments when it accepts
them: the method it stores and the parsed URL. -/
structure BuiltRequest where
  Method : Bytes
  URL : URL
deriving DecidableEq, Repr

/-- The library calls made by the client: `json.Marshal`, the method validation and URL
parsing of `http.NewRequest`, and `http.Client.Do`. -/
structure Platform (β : Type) where
  Marshal : β → Except String Bytes
  NewRequest : Bytes → Bytes → Except String BuiltRequest
  Do : HTTPRequest → Except String HTTPResponse

/-- Map assignment `m[k] = v`. -/
def mapAssign : Values → Bytes → List Bytes → Values
  | [], k, v => [(k, v)]
  | (k', v') :: m, k, v => if k' = k then (k, v) :: m else (k', v') :: mapAssign m k v

/-- Map index `m[k]`, `none` when the key is absent. -/
def mapIndex : Values → Bytes → Option (List Bytes)
  | [], _ => none
  | (k', v') :: m, k => if k' = k then some v' else mapIndex m k

/-- Byte-wise lexicographic order of Go strings, `a <= b`. -/
def bytesLE : Bytes → Bytes → Bool
  | [], _ => true
  | _ :: _, [] => false
  | a :: as, b :: bs => if a < b then true else if b < a then false else bytesLE as bs

/-- Insertion of a key into a sorted key list. -/
def insertKey (k : Bytes) : List Bytes → List Bytes
  | [] => [k]
  | x :: xs => if bytesLE k x then k :: x :: xs else x :: insertKey k xs

/-- The sorted keys of a map (`slices.Sort(keys)`). -/
def sortKeys (ks : List Bytes) : List Bytes :=
  ks.foldr insertKey []

/-- The digit `"0123456789ABCDEF"[n]`. -/
def upperhex (n : Nat) : Nat :=
  if n < 10 then 48 + n else 55 + n

/-- Escaping test of net/url in query-component mode: letters, digits and `-_.~` pass. -/
def shouldEscape (c : Nat) : Bool :=
  !((97 ≤ c && c ≤ 122) || (65 ≤ c && c ≤ 90) || (48 ≤ c && c ≤ 57)
    || c = 45 || c = 95 || c = 46 || c = 126)

/-- The function `url.QueryEscape`. -/
def QueryEscape (s : Bytes) : Bytes :=
  s.flatMap fun c =>
    if shouldEscape c then
      if c = 32 then [43] else [37, upperhex (c / 16), upperhex (c % 16)]
    else [c]

/-- The method `url.Values.Encode`: `key=value` pairs joined by `&`, keys sorted. -/
def Encode (v : Values) : Bytes :=
  if v.length = 0 then []
  else
    (sortKeys (v.map Prod.fst)).foldl
      (fun buf k =>
        ((mapIndex v k).getD []).foldl
          (fun buf x =>
            (if buf.length > 0 then buf ++ [38] else buf)
              ++ QueryEscape k ++ [61] ++ QueryEscape x)
          buf)
      []

/-! ## client.go -/

/-- The struct `HTTPClient`. -/
structure HTTPClient where
  maxLogsBodyChars : Int
deriving DecidableEq, Repr

/-- The constructor `New`. -/
def New (maxLogsBodyChars : Int) : HTTPClient :=
  { maxLogsBodyChars := maxLogsBodyChars }

/-- The Go slice expression `s[0:hi]` on a string; `none` is the run-time panic
"slice bounds out of range". -/
def sliceTo (s : Bytes) (hi : Int) : Option Bytes :=
  if 0 ≤ hi ∧ hi ≤ (s.length : Int) then some (s.take hi.toNat) else none

/-- Lines 37-40 and 85-88 of client.go:
`if len(bodyString) > h.maxLogsBodyChars { bodyString = bodyString[0:h.maxLogsBodyChars] }`. -/
def logString (h : HTTPClient) (bodyString : Bytes) : Option Bytes :=
  if (bodyString.length : Int) > h.maxLogsBodyChars then sliceTo bodyString h.maxLogsBodyChars
  else some bodyString

/-- What a call does, in order. -/
inductive Event where
  /-- The debug record "HTTPClient request" with its fields. -/
  | requestLog (Method URL Body : Bytes)
  /-- The call `http.NewRequest(method, url, body)`; `none` is the nil reader. -/
  | newRequest (Method URL : Bytes) (Body : Option Bytes)
  /-- The call `httpClient.Do(req)`. -/
  | send (req : HTTPRequest)
  /-- The call `ioutil.ReadAll(resp.Body)`. -/
  | readAll
  /-- The call `resp.Body.Close()`. -/
  | close
  /-- The debug record "HTTPClient response" with its fields. -/
  | responseLog (StatusCode : Int) (Body : Bytes)
deriving DecidableEq, Repr

/-- How a call ends: it returns the pair `(*Response, error)`, or it panics. -/
inductive Outcome where
  | returned (resp : Option Response) (err : Option String)
  | panicked
deriving DecidableEq, Repr

/-- The two header map objects alive during a call: the one `r.Headers` refers to and
the one allocated by `http.NewRequest`. -/
inductive MapRef where
  | caller
  | fresh
deriving DecidableEq, Repr

/-- The contents of the two map objects. -/
structure Store where
  caller : Values
  fresh : Values

/-- Contents of the map a reference points to. -/
def Store.read (s : Store) : MapRef → Values
  | .caller => s.caller
  | .fresh => s.fresh

/-- Replace the contents of the map a reference points to. -/
def Store.write (s : Store) (ref : MapRef) (m : Values) : Store :=
  match ref with
  | .caller => { s with caller := m }
  | .fresh => { s with fresh := m }

/-- The canonical header key `Content-Type`. -/
def contentType : Bytes := str "Content-Type"

/-- The header value `application/json`. -/
def applicationJSON : Bytes := str "application/json"

/-- The method `http.Header.Set` for a key already in canonical form:
`h[key] = []string{value}` on the map object behind `ref`. -/
def headerSet (s : Store) (ref : MapRef) (key value : Bytes) : Store :=
  s.write ref (mapAssign (s.read ref) key [value])

/-- Result of lines 25-44: the reader handed on and the string to log. -/
inductive Prepared where
  | ok (body : Option Bytes) (bodyString : Bytes)
  | fail (err : String)
  | panic

/-- Lines 25-44 of client.go: marshal the payload and prepare its log string. -/
def prepare {β : Type} (P : Platform β) (h : HTTPClient) (r : Request β) : Prepared :=
  match r.Body with
  | none => .ok none []
  | some b =>
    match P.Marshal b with
    | .error err => .fail err
    | .ok requestPayload =>
      if r.LogRequestBody then
        match logString h requestPayload with
        | none => .panic
        | some bodyString => .ok (some requestPayload) bodyString
      else .ok (some requestPayload) []

/-- A finished call: how it ended, what it did, and the caller's request afterwards. -/
structure Result (β : Type) where
  outcome : Outcome
  trace : List Event
  request : Request β

/-- The method `Request` of client.go. `p` is the pointer `r`, `r` the struct it points to. -/
def HTTPClient.Request {β : Type} (h : HTTPClient) (P : Platform β) (p : Nat)
    (r : gohttpoison.Request β) : Result β :=
  match prepare P h r with
  | .fail err => ⟨.returned none (some err), [], r⟩
  | .panic => ⟨.panicked, [], r⟩
  | .ok body bodyString =>
    let t1 := [Event.requestLog r.Method r.URL bodyString,
               Event.newRequest r.Method r.URL body]
    match P.NewRequest r.Method r.URL with
    | .error err => ⟨.returned none (some err), t1, r⟩
    | .ok u =>
      -- http.NewRequest: a request with a freshly made, empty header map
      let store0 : Store := { caller := r.Headers.getD [], fresh := [] }
      -- req.URL.RawQuery = q.Encode()
      let u1 : URL := { u.URL with RawQuery := Encode (r.Params.getD []) }
      -- if r.Headers != nil { req.Header = r.Headers }
      let header : MapRef := if r.Headers.isSome then .caller else .fresh
      -- req.Header.Set("Content-Type", "application/json")
      let store1 := headerSet store0 header contentType applicationJSON
      let r1 : gohttpoison.Request β := { r with Headers := r.Headers.map fun _ => store1.caller }
      let req : HTTPRequest :=
        { Method := u.Method, URL := u1, Header := store1.read header, Body := body }
      let t2 := t1 ++ [Event.send req]
      match P.Do req with
      | .error err => ⟨.returned none (some err), t2, r1⟩
      | .ok resp =>
        match resp.Body.ReadAll with
        | .error err => ⟨.returned none (some err), t2 ++ [Event.readAll], r1⟩
        | .ok respBytes =>
          match resp.Body.Close with
          | some err => ⟨.returned none (some err), t2 ++ [Event.readAll, Event.close], r1⟩
          | none =>
            match (if r.LogResponseBody then logString h respBytes else some []) with
            | none => ⟨.panicked, t2 ++ [Event.readAll, Event.close], r1⟩
            | some bodyString =>
              ⟨.returned
                  (some { StatusCode := resp.StatusCode, Body := respBytes,
                          Headers := resp.Header, Request := p })
                  none,
                t2 ++ [Event.readAll, Event.close,
                       Event.responseLog resp.StatusCode bodyString],
                r1⟩

/-! ## Reading a trace -/

/-- The `Body` fields of the "HTTPClient request" records of a trace. -/
def requestLogBodies : List Event → List Bytes
  | [] => []
  | .requestLog _ _ b :: t => b :: requestLogBodies t
  | _ :: t => requestLogBodies t

/-- The `Body` fields of the "HTTPClient response" records of a trace. -/
def responseLogBodies : List Event → List Bytes
  | [] => []
  | .responseLog _ b :: t => b :: responseLogBodies t
  | _ :: t => responseLogBodies t

/-- The requests handed to the transport in a trace. -/
def sent : List Event → List HTTPRequest
  | [] => []
  | .send q :: t => q :: sent t
  | _ :: t => sent t

/-! ## A test double of the platform, after the httptest servers of client_test.go -/

/-- Payloads of the test double: a JSON-encodable text, or a channel. -/
inductive Payload where
  | text (json : Bytes)
  | channel
deriving DecidableEq, Repr

/-- A platform that rejects channels and the method `(INVALID)`, and whose server answers
200 with the given header and body. -/
def echoServer (respHeader : Values) (respBody : Bytes) : Platform Payload where
  Marshal
    | .text json => .ok json
    | .channel => .error "json: unsupported type: chan int"
  NewRequest method url :=
    if method = str "(INVALID)" then .error "net/http: invalid method"
    else .ok { Method := if method = [] then str "GET" else method,
               URL := { Scheme := str "http", Host := str "127.0.0.1", Path := url,
                        RawQuery := str "stale=1" } }
  Do _ :=
    .ok { StatusCode := 200, Header := respHeader,
          Body := { ReadAll := .ok respBody, Close := none } }

/-! ## Specification-side definitions -/

/-- The request the transport is expected to receive: the stored method, the parsed URL
with the encoded `Params` as its query, the caller's headers with `Content-Type`
assigned, and the given body. -/
def outgoing {β : Type} (r : Request β) (u : BuiltRequest) (body : Option Bytes) :
    HTTPRequest :=
  { Method := u.Method,
    URL := { u.URL with RawQuery := Encode (r.Params.getD []) },
    Header := mapAssign (r.Headers.getD []) contentType [applicationJSON],
    Body := body }

/-- The caller's request once the header step has run. -/
def afterHeaders {β : Type} (r : Request β) : Request β :=
  { r with Headers := r.Headers.map fun m => mapAssign m contentType [applicationJSON] }

/-- The events up to and including the send. -/
def sendTrace {β : Type} (r : Request β) (u : BuiltRequest) (body : Option Bytes)
    (bodyString : Bytes) : List Event :=
  [Event.requestLog r.Method r.URL bodyString, Event.newRequest r.Method r.URL body,
   Event.send (outgoing r u body)]

/-- The fallible steps of a call, in the order the spec lists them. -/
inductive Step where
  | encode
  | construct
  | send
  | read
  | close
deriving DecidableEq, Repr

/-- The platform calls recorded in a trace, in order. -/
def calls : List Event → List Step
  | [] => []
  | .newRequest _ _ _ :: t => .construct :: calls t
  | .send _ :: t => .send :: calls t
  | .readAll :: t => .read :: calls t
  | .close :: t => .close :: calls t
  | _ :: t => calls t

/-- The platform calls made when the given step is the last one to run. -/
def Step.through : Step → List Step
  | .encode => []
  | .construct => [.construct]
  | .send => [.construct, .send]
  | .read => [.construct, .send, .read]
  | .close => [.construct, .send, .read, .close]

/-- Step 1 of the spec: a present body is encoded to JSON, an absent one stays absent. -/
def encode {β : Type} (P : Platform β) (r : Request β) : Except String (Option Bytes) :=
  match r.Body with
  | none => .ok none
  | some b =>
    match P.Marshal b with
    | .error e => .error e
    | .ok payload => .ok (some payload)

/-- The spec's reading of a call: JSON encoding, request construction, send, body read and
body close in this order, ending at the first step that fails with that step and its
error, and otherwise with the transport's response and the bytes read. -/
def pipeline {β : Type} (P : Platform β) (r : Request β) :
    Except (Step × String) (HTTPResponse × Bytes) := do
  let body ← (encode P r).mapError fun e => (Step.encode, e)
  let u ← (P.NewRequest r.Method r.URL).mapError fun e => (Step.construct, e)
  let resp ← (P.Do (outgoing r u body)).mapError fun e => (Step.send, e)
  let respBytes ← resp.Body.ReadAll.mapError fun e => (Step.read, e)
  match resp.Body.Close with
  | some e => throw (Step.close, e)
  | none => pure (resp, respBytes)

/-- Every call ends in exactly one of these eight ways. -/
inductive Ending {β : Type} (h : HTTPClient) (P : Platform β) (p : Nat) (r : Request β) :
    Result β → Prop where
  | marshalError (e : String) (hp : prepare P h r = .fail e) :
      Ending h P p r ⟨.returned none (some e), [], r⟩
  | requestPanic (hp : prepare P h r = .panic) :
      Ending h P p r ⟨.panicked, [], r⟩
  | newRequestError (body : Option Bytes) (bs : Bytes) (e : String)
      (hp : prepare P h r = .ok body bs) (hn : P.NewRequest r.Method r.URL = .error e) :
      Ending h P p r
        ⟨.returned none (some e),
         [Event.requestLog r.Method r.URL bs, Event.newRequest r.Method r.URL body], r⟩
  | doError (body : Option Bytes) (bs : Bytes) (u : BuiltRequest) (e : String)
      (hp : prepare P h r = .ok body bs) (hn : P.NewRequest r.Method r.URL = .ok u)
      (hd : P.Do (outgoing r u body) = .error e) :
      Ending h P p r ⟨.returned none (some e), sendTrace r u body bs, afterHeaders r⟩
  | readError (body : Option Bytes) (bs : Bytes) (u : BuiltRequest) (resp : HTTPResponse)
      (e : String)
      (hp : prepare P h r = .ok body bs) (hn : P.NewRequest r.Method r.URL = .ok u)
      (hd : P.Do (outgoing r u body) = .ok resp) (hr : resp.Body.ReadAll = .error e) :
      Ending h P p r
        ⟨.returned none (some e), sendTrace r u body bs ++ [Event.readAll], afterHeaders r⟩
  | closeError (body : Option Bytes) (bs : Bytes) (u : BuiltRequest) (resp : HTTPResponse)
      (respBytes : Bytes) (e : String)
      (hp : prepare P h r = .ok body bs) (hn : P.NewRequest r.Method r.URL = .ok u)
      (hd : P.Do (outgoing r u body) = .ok resp) (hr : resp.Body.ReadAll = .ok respBytes)
      (hc : resp.Body.Close = some e) :
      Ending h P p r
        ⟨.returned none (some e), sendTrace r u body bs ++ [Event.readAll, Event.close],
         afterHeaders r⟩
  | responsePanic (body : Option Bytes) (bs : Bytes) (u : BuiltRequest) (resp : HTTPResponse)
      (respBytes : Bytes)
      (hp : prepare P h r = .ok body bs) (hn : P.NewRequest r.Method r.URL = .ok u)
      (hd : P.Do (outgoing r u body) = .ok resp) (hr : resp.Body.ReadAll = .ok respBytes)
      (hc : resp.Body.Close = none)
      (hs : (if r.LogResponseBody then logString h respBytes else some []) = none) :
      Ending h P p r
        ⟨.panicked, sendTrace r u body bs ++ [Event.readAll, Event.close], afterHeaders r⟩
  | success (body : Option Bytes) (bs : Bytes) (u : BuiltRequest) (resp : HTTPResponse)
      (respBytes logged : Bytes)
      (hp : prepare P h r = .ok body bs) (hn : P.NewRequest r.Method r.URL = .ok u)
      (hd : P.Do (outgoing r u body) = .ok resp) (hr : resp.Body.ReadAll = .ok respBytes)
      (hc : resp.Body.Close = none)
      (hs : (if r.LogResponseBody then logString h respBytes else some []) = some logged) :
      Ending h P p r
        ⟨.returned
            (some { StatusCode := resp.StatusCode, Body := respBytes,
                    Headers := resp.Header, Request := p })
            none,
         sendTrace r u body bs
           ++ [Event.readAll, Event.close, Event.responseLog resp.StatusCode logged],
         afterHeaders r⟩

/-! ## Sample inputs -/

/-- The request of TestRequestWithHeaders, with a payload, a stale query and both log
flags set. -/
def sampleRequest : Request Payload :=
  { Method := str "GET", URL := str "http://127.0.0.1/x?stale=1",
    Body := some (.text (str "\x7b\"test\":\"test\"\x7d")),
    Headers := some [(str "Authorization", [str "Bearer token"])],
    Params := some [(str "q", [str "a b"])],
    LogRequestBody := true, LogResponseBody := true }

/-! ## Lemmas on slicing and on the log string -/

theorem sliceTo_of_le (s : Bytes) (L : Int) (h0 : 0 ≤ L) (h1 : L ≤ (s.length : Int)) :
    sliceTo s L = some (s.take L.toNat) := by
  simp [sliceTo, h0, h1]

theorem logString_of_nonneg (L : Int) (hL : 0 ≤ L) (s : Bytes) :
    logString (New L) s = some (if (s.length : Int) ≤ L then s else s.take L.toNat) := by
  unfold logString New
  by_cases h : (s.length : Int) ≤ L
  · have h' : ¬ ((s.length : Int) > L) := not_lt.mpr h
    simp [h, h']
  · have h' : (s.length : Int) > L := not_le.mp h
    simp only [h', if_true, h, if_false]
    exact sliceTo_of_le s L hL (le_of_lt h')

theorem logString_of_neg (L : Int) (hL : L < 0) (s : Bytes) :
    logString (New L) s = none := by
  have h' : (s.length : Int) > L := lt_of_lt_of_le hL (Int.ofNat_nonneg _)
  have h0 : ¬ (0 ≤ L) := not_le.mpr hL
  simp [logString, New, h', sliceTo, h0]

theorem length_take_toNat (L : Int) (hL : 0 ≤ L) (s : Bytes) (h : L < (s.length : Int)) :
    ((s.take L.toNat).length : Int) = L := by
  rw [List.length_take]
  have h1 : L.toNat ≤ s.length := by omega
  rw [Nat.min_eq_left h1]
  exact Int.toNat_of_nonneg hL

/-! ## The stages of a call -/

theorem prepare_nil {β : Type} (P : Platform β) (h : HTTPClient) (r : Request β)
    (hb : r.Body = none) : prepare P h r = .ok none [] := by
  simp [prepare, hb]

theorem prepare_error {β : Type} (P : Platform β) (h : HTTPClient) (r : Request β)
    (b : β) (e : String) (hb : r.Body = some b) (hm : P.Marshal b = .error e) :
    prepare P h r = .fail e := by
  simp [prepare, hb, hm]

theorem prepare_quiet {β : Type} (P : Platform β) (h : HTTPClient) (r : Request β)
    (b : β) (payload : Bytes) (hb : r.Body = some b) (hm : P.Marshal b = .ok payload)
    (hlog : r.LogRequestBody = false) :
    prepare P h r = .ok (some payload) [] := by
  simp [prepare, hb, hm, hlog]

theorem prepare_logged {β : Type} (P : Platform β) (L : Int) (hL : 0 ≤ L) (r : Request β)
    (b : β) (payload : Bytes) (hb : r.Body = some b) (hm : P.Marshal b = .ok payload)
    (hlog : r.LogRequestBody = true) :
    prepare P (New L) r
      = .ok (some payload) (if (payload.length : Int) ≤ L then payload
                            else payload.take L.toNat) := by
  simp [prepare, hb, hm, hlog, logString_of_nonneg L hL]

theorem request_of_fail {β : Type} (h : HTTPClient) (P : Platform β) (p : Nat)
    (r : Request β) (e : String) (hp : prepare P h r = .fail e) :
    h.Request P p r = ⟨.returned none (some e), [], r⟩ := by
  simp [HTTPClient.Request, hp]

theorem request_of_panic {β : Type} (h : HTTPClient) (P : Platform β) (p : Nat)
    (r : Request β) (hp : prepare P h r = .panic) :
    h.Request P p r = ⟨.panicked, [], r⟩ := by
  simp [HTTPClient.Request, hp]

theorem request_of_newRequest_error {β : Type} (h : HTTPClient) (P : Platform β) (p : Nat)
    (r : Request β) (body : Option Bytes) (bs : Bytes) (e : String)
    (hp : prepare P h r = .ok body bs) (hn : P.NewRequest r.Method r.URL = .error e) :
    h.Request P p r
      = ⟨.returned none (some e),
         [Event.requestLog r.Method r.URL bs, Event.newRequest r.Method r.URL body], r⟩ := by
  simp [HTTPClient.Request, hp, hn]

/-- The request built by the code, read through its header reference, is `outgoing`. -/
theorem built_header {β : Type} (r : Request β) :
    (headerSet { caller := r.Headers.getD [], fresh := [] }
        (if r.Headers.isSome then MapRef.caller else MapRef.fresh)
        contentType applicationJSON).read
      (if r.Headers.isSome then MapRef.caller else MapRef.fresh)
      = mapAssign (r.Headers.getD []) contentType [applicationJSON] := by
  cases hh : r.Headers <;> simp [headerSet, Store.write, Store.read]

/-- The caller's map after the header step. -/
theorem built_caller {β : Type} (r : Request β) :
    ({ r with Headers := r.Headers.map fun _ =>
        (headerSet { caller := r.Headers.getD [], fresh := [] }
          (if r.Headers.isSome then MapRef.caller else MapRef.fresh)
          contentType applicationJSON).caller } : Request β)
      = afterHeaders r := by
  cases hh : r.Headers <;> simp [headerSet, Store.write, Store.read, afterHeaders, hh]

theorem request_of_do_error {β : Type} (h : HTTPClient) (P : Platform β) (p : Nat)
    (r : Request β) (body : Option Bytes) (bs : Bytes) (u : BuiltRequest) (e : String)
    (hp : prepare P h r = .ok body bs) (hn : P.NewRequest r.Method r.URL = .ok u)
    (hd : P.Do (outgoing r u body) = .error e) :
    h.Request P p r = ⟨.returned none (some e), sendTrace r u body bs, afterHeaders r⟩ := by
  have hd' := hd
  simp only [outgoing, ← built_header r] at hd'
  simp only [HTTPClient.Request, hp, hn, hd', built_caller]
  simp [sendTrace, outgoing, built_header]

theorem request_of_read_error {β : Type} (h : HTTPClient) (P : Platform β) (p : Nat)
    (r : Request β) (body : Option Bytes) (bs : Bytes) (u : BuiltRequest) (resp : HTTPResponse)
    (e : String)
    (hp : prepare P h r = .ok body bs) (hn : P.NewRequest r.Method r.URL = .ok u)
    (hd : P.Do (outgoing r u body) = .ok resp) (hr : resp.Body.ReadAll = .error e) :
    h.Request P p r
      = ⟨.returned none (some e), sendTrace r u body bs ++ [Event.readAll],
         afterHeaders r⟩ := by
  have hd' := hd
  simp only [outgoing, ← built_header r] at hd'
  simp only [HTTPClient.Request, hp, hn, hd', hr, built_caller]
  simp [sendTrace, outgoing, built_header]

theorem request_of_close_error {β : Type} (h : HTTPClient) (P : Platform β) (p : Nat)
    (r : Request β) (body : Option Bytes) (bs : Bytes) (u : BuiltRequest) (resp : HTTPResponse)
    (respBytes : Bytes) (e : String)
    (hp : prepare P h r = .ok body bs) (hn : P.NewRequest r.Method r.URL = .ok u)
    (hd : P.Do (outgoing r u body) = .ok resp) (hr : resp.Body.ReadAll = .ok respBytes)
    (hc : resp.Body.Close = some e) :
    h.Request P p r
      = ⟨.returned none (some e), sendTrace r u body bs ++ [Event.readAll, Event.close],
         afterHeaders r⟩ := by
  have hd' := hd
  simp only [outgoing, ← built_header r] at hd'
  simp only [HTTPClient.Request, hp, hn, hd', hr, hc, built_caller]
  simp [sendTrace, outgoing, built_header]

theorem request_of_response_panic {β : Type} (h : HTTPClient) (P : Platform β) (p : Nat)
    (r : Request β) (body : Option Bytes) (bs : Bytes) (u : BuiltRequest) (resp : HTTPResponse)
    (respBytes : Bytes)
    (hp : prepare P h r = .ok body bs) (hn : P.NewRequest r.Method r.URL = .ok u)
    (hd : P.Do (outgoing r u body) = .ok resp) (hr : resp.Body.ReadAll = .ok respBytes)
    (hc : resp.Body.Close = none)
    (hs : (if r.LogResponseBody then logString h respBytes else some []) = none) :
    h.Request P p r
      = ⟨.panicked, sendTrace r u body bs ++ [Event.readAll, Event.close],
         afterHeaders r⟩ := by
  have hd' := hd
  simp only [outgoing, ← built_header r] at hd'
  simp only [HTTPClient.Request, hp, hn, hd', hr, hc, hs, built_caller]
  simp [sendTrace, outgoing, built_header]

theorem request_of_success {β : Type} (h : HTTPClient) (P : Platform β) (p : Nat)
    (r : Request β) (body : Option Bytes) (bs : Bytes) (u : BuiltRequest) (resp : HTTPResponse)
    (respBytes logged : Bytes)
    (hp : prepare P h r = .ok body bs) (hn : P.NewRequest r.Method r.URL = .ok u)
    (hd : P.Do (outgoing r u body) = .ok resp) (hr : resp.Body.ReadAll = .ok respBytes)
    (hc : resp.Body.Close = none)
    (hs : (if r.LogResponseBody then logString h respBytes else some []) = some logged) :
    h.Request P p r
      = ⟨.returned
            (some { StatusCode := resp.StatusCode, Body := respBytes,
                    Headers := resp.Header, Request := p })
            none,
         sendTrace r u body bs
           ++ [Event.readAll, Event.close, Event.responseLog resp.StatusCode logged],
         afterHeaders r⟩ := by
  have hd' := hd
  simp only [outgoing, ← built_header r] at hd'
  simp only [HTTPClient.Request, hp, hn, hd', hr, hc, hs, built_caller]
  simp [sendTrace, outgoing, built_header]

/-- The method `Request` always ends in one of the ways listed by `Ending`. -/
theorem request_ending {β : Type} (h : HTTPClient) (P : Platform β) (p : Nat)
    (r : Request β) : Ending h P p r (h.Request P p r) := by
  cases hp : prepare P h r with
  | fail e => rw [request_of_fail h P p r e hp]; exact .marshalError e hp
  | panic => rw [request_of_panic h P p r hp]; exact .requestPanic hp
  | ok body bs =>
    cases hn : P.NewRequest r.Method r.URL with
    | error e =>
      rw [request_of_newRequest_error h P p r body bs e hp hn]
      exact .newRequestError body bs e hp hn
    | ok u =>
      cases hd : P.Do (outgoing r u body) with
      | error e =>
        rw [request_of_do_error h P p r body bs u e hp hn hd]
        exact .doError body bs u e hp hn hd
      | ok resp =>
        cases hr : resp.Body.ReadAll with
        | error e =>
          rw [request_of_read_error h P p r body bs u resp e hp hn hd hr]
          exact .readError body bs u resp e hp hn hd hr
        | ok respBytes =>
          cases hc : resp.Body.Close with
          | some e =>
            rw [request_of_close_error h P p r body bs u resp respBytes e hp hn hd hr hc]
            exact .closeError body bs u resp respBytes e hp hn hd hr hc
          | none =>
            cases hs : (if r.LogResponseBody then logString h respBytes else some []) with
            | none =>
              rw [request_of_response_panic h P p r body bs u resp respBytes hp hn hd hr hc hs]
              exact .responsePanic body bs u resp respBytes hp hn hd hr hc hs
            | some logged =>
              rw [request_of_success h P p r body bs u resp respBytes logged
                    hp hn hd hr hc hs]
              exact .success body bs u resp respBytes logged hp hn hd hr hc hs

/-! ## The claims -/

/-- C1 as stated fails: the JSON encoding of the Go string "é" is the three characters
`"é"`, four bytes. With limit 3 the claim has the whole encoding logged, the code logs
only its first three bytes; with limit 2 the claim has the first two characters logged
(three bytes), the code logs two bytes, ending inside the character. The response record
is cut the same way. -/
theorem log_records_cut_inside_character_counterexample :
    ¬ (∀ (P : Platform Payload) (L : Int) (p : Nat) (r : Request Payload) (b : Payload)
          (text : List Char),
        0 ≤ L → r.Body = some b → P.Marshal b = .ok (utf8 text) →
        r.LogRequestBody = true →
        requestLogBodies ((New L).Request P p r).trace
          = [if (text.length : Int) ≤ L then utf8 text else utf8 (text.take L.toNat)])
      ∧ utf8 ['"', 'é', '"'] = [34, 195, 169, 34]
      ∧ requestLogBodies
          ((New 3).Request (echoServer [] []) 7
            { sampleRequest with Body := some (.text (utf8 ['"', 'é', '"'])) }).trace
          = [[34, 195, 169]]
      ∧ requestLogBodies
          ((New 2).Request (echoServer [] []) 7
            { sampleRequest with Body := some (.text (utf8 ['"', 'é', '"'])) }).trace
          = [[34, 195]]
      ∧ utf8 (['"', 'é', '"'].take 2) = [34, 195, 169]
      ∧ responseLogBodies
          ((New 2).Request (echoServer [] (utf8 ['"', 'é', '"'])) 7 sampleRequest).trace
          = [[34, 195]] := by
  refine ⟨?_, by decide, by decide, by decide, by decide, by decide⟩
  intro hall
  have h := hall (echoServer [] []) 3 7
    { sampleRequest with Body := some (.text (utf8 ['"', 'é', '"'])) }
    (.text (utf8 ['"', 'é', '"'])) ['"', 'é', '"'] (by decide) rfl rfl rfl
  revert h
  decide

/-- C1, amended: for a client built with `New L`, `0 ≤ L`, and a request with a non-nil
encodable Body and LogRequestBody set, the Body field of the "HTTPClient request" record
is the full JSON encoding when its length in bytes (Go's `len`) is at most `L`, and
otherwise its first `L` bytes, a string of exactly `L` bytes; the same byte rule gives the
Body field of the "HTTPClient response" record from the bytes read from the transport's
response when LogResponseBody is set. -/
theorem log_records_follow_truncation_rule {β : Type} (P : Platform β) (L : Int)
    (hL : 0 ≤ L) (p : Nat) (r : Request β) :
    (∀ b payload, r.Body = some b → P.Marshal b = .ok payload → r.LogRequestBody = true →
        requestLogBodies ((New L).Request P p r).trace
            = [if (payload.length : Int) ≤ L then payload else payload.take L.toNat]
          ∧ (L < (payload.length : Int) → ((payload.take L.toNat).length : Int) = L))
    ∧ (r.LogResponseBody = true →
        ∀ q ∈ sent ((New L).Request P p r).trace, ∀ resp respBytes,
          P.Do q = .ok resp → resp.Body.ReadAll = .ok respBytes → resp.Body.Close = none →
          responseLogBodies ((New L).Request P p r).trace
              = [if (respBytes.length : Int) ≤ L then respBytes else respBytes.take L.toNat]
            ∧ (L < (respBytes.length : Int) →
                ((respBytes.take L.toNat).length : Int) = L)) := by
  constructor
  · intro b payload hb hm hlog
    refine ⟨?_, length_take_toNat L hL payload⟩
    have hprep := prepare_logged P L hL r b payload hb hm hlog
    have hend := request_ending (New L) P p r
    generalize (New L).Request P p r = res at hend ⊢
    cases hend with
    | marshalError e hp => rw [hprep] at hp; cases hp
    | requestPanic hp => rw [hprep] at hp; cases hp
    | newRequestError body bs e hp hn =>
      rw [hprep] at hp; cases hp; simp [requestLogBodies]
    | doError body bs u e hp hn hd =>
      rw [hprep] at hp; cases hp; simp [requestLogBodies, sendTrace]
    | readError body bs u resp e hp hn hd hr =>
      rw [hprep] at hp; cases hp; simp [requestLogBodies, sendTrace]
    | closeError body bs u resp respBytes e hp hn hd hr hc =>
      rw [hprep] at hp; cases hp; simp [requestLogBodies, sendTrace]
    | responsePanic body bs u resp respBytes hp hn hd hr hc hs =>
      rw [hprep] at hp; cases hp; simp [requestLogBodies, sendTrace]
    | success body bs u resp respBytes logged hp hn hd hr hc hs =>
      rw [hprep] at hp; cases hp; simp [requestLogBodies, sendTrace]
  · intro hlog q hq resp respBytes hdo hread hclose
    refine ⟨?_, length_take_toNat L hL respBytes⟩
    have hend := request_ending (New L) P p r
    revert hq
    generalize (New L).Request P p r = res at hend ⊢
    cases hend with
    | marshalError e hp => simp [sent]
    | requestPanic hp => simp [sent]
    | newRequestError body bs e hp hn => simp [sent]
    | doError body bs u e hp hn hd =>
      simp only [sendTrace, sent, List.mem_singleton]
      intro hq; subst hq; rw [hdo] at hd; cases hd
    | readError body bs u resp1 e hp hn hd hr =>
      simp only [sendTrace, sent, List.cons_append, List.nil_append, List.mem_singleton]
      intro hq; subst hq; rw [hdo] at hd; cases hd; rw [hread] at hr; cases hr
    | closeError body bs u resp1 respBytes1 e hp hn hd hr hc =>
      simp only [sendTrace, sent, List.cons_append, List.nil_append, List.mem_singleton]
      intro hq; subst hq; rw [hdo] at hd; cases hd; rw [hclose] at hc; cases hc
    | responsePanic body bs u resp1 respBytes1 hp hn hd hr hc hs =>
      simp only [sendTrace, sent, List.cons_append, List.nil_append, List.mem_singleton]
      intro hq; subst hq
      simp [hlog, logString_of_nonneg L hL] at hs
    | success body bs u resp1 respBytes1 logged hp hn hd hr hc hs =>
      simp only [sendTrace, sent, List.cons_append, List.nil_append, List.mem_singleton]
      intro hq; subst hq; rw [hdo] at hd; cases hd; rw [hread] at hr; cases hr
      simp only [hlog, if_true, logString_of_nonneg L hL, Option.some.injEq] at hs
      simp [responseLogBodies, hs]

theorem log_records_follow_truncation_rule_witness :
    (0 : Int) ≤ 5
      ∧ requestLogBodies
          ((New 5).Request (echoServer [] (str "0123456789")) 7 sampleRequest).trace
          = [str "\x7b\"tes"]
      ∧ responseLogBodies
          ((New 5).Request (echoServer [] (str "0123456789")) 7 sampleRequest).trace
          = [str "01234"] := by
  have h := log_records_follow_truncation_rule (echoServer [] (str "0123456789")) 5
    (by decide) 7 sampleRequest
  refine ⟨by decide, ?_, ?_⟩
  · exact (h.1 (.text (str "\x7b\"test\":\"test\"\x7d")) (str "\x7b\"test\":\"test\"\x7d")
      rfl rfl rfl).1
  · exact (h.2 rfl _ (List.mem_singleton.mpr rfl) _ (str "0123456789") rfl rfl rfl).1

/-! ### Characters and bytes -/

theorem encodeRune_ascii (c : Char) (hc : c.toNat < 128) : encodeRune c = [c.toNat] := by
  simp [encodeRune, hc]

theorem utf8_ascii (s : List Char) (hs : ∀ c ∈ s, c.toNat < 128) :
    utf8 s = s.map Char.toNat := by
  induction s with
  | nil => rfl
  | cons c t ih =>
    have hc : c.toNat < 128 := hs c (List.mem_cons_self c t)
    have ht : ∀ d ∈ t, d.toNat < 128 := fun d hd => hs d (List.mem_cons_of_mem c hd)
    have ih' := ih ht
    simp only [utf8] at ih' ⊢
    simp [List.flatMap_cons, encodeRune_ascii c hc, ih']

/-- C2 as stated fails: with limit 1 the one-character text "é" (two bytes) is not logged
whole but cut to its first byte, and the two-character text "éa" is cut to that same
byte, not to its first character. -/
theorem truncation_counts_bytes_counterexample :
    ¬ (∀ (L : Int) (s : List Char), 0 ≤ L →
        logString (New L) (utf8 s)
          = some (if (s.length : Int) ≤ L then utf8 s else utf8 (s.take L.toNat)))
      ∧ logString (New 1) (str "é") = some [195]
      ∧ str "é" = [195, 169]
      ∧ logString (New 1) (str "éa") = some [195] := by
  refine ⟨?_, by decide, by decide, by decide⟩
  intro hall
  have h := hall 1 ['é'] (by decide)
  revert h
  decide

/-- C2, amended: the limit is counted in bytes. For every limit `0 ≤ L` and every text,
the logged string is the whole UTF-8 text when its byte count is at most `L`, and
otherwise exactly its first `L` bytes; for a text of one-byte (ASCII) characters only,
that is the whole text when its character count is at most `L` and otherwise its first
`L` characters. -/
theorem truncation_counts_bytes (L : Int) (hL : 0 ≤ L) (s : List Char) :
    logString (New L) (utf8 s)
        = some (if ((utf8 s).length : Int) ≤ L then utf8 s else (utf8 s).take L.toNat)
      ∧ ((∀ c ∈ s, c.toNat < 128) →
          logString (New L) (utf8 s)
            = some (if (s.length : Int) ≤ L then utf8 s else utf8 (s.take L.toNat))) := by
  refine ⟨logString_of_nonneg L hL (utf8 s), ?_⟩
  intro hs
  have htake : ∀ c ∈ s.take L.toNat, c.toNat < 128 :=
    fun c hc => hs c (List.mem_of_mem_take hc)
  rw [logString_of_nonneg L hL, utf8_ascii s hs, utf8_ascii _ htake]
  simp [List.map_take]

theorem truncation_counts_bytes_witness :
    (0 : Int) ≤ 2
      ∧ logString (New 2) (utf8 ['a', 'é', 'b']) = some [97, 195]
      ∧ logString (New 2) (utf8 ['a', 'b', 'c']) = some (utf8 ['a', 'b']) := by
  have h1 := truncation_counts_bytes 2 (by decide) ['a', 'é', 'b']
  have h2 := truncation_counts_bytes 2 (by decide) ['a', 'b', 'c']
  exact ⟨by decide, h1.1, h2.2 (by decide)⟩

/-! ### Errors and frame -/

/-- C3: when the Body cannot be encoded by `json.Marshal`, `Request` returns a nil
response together with the marshal error, and nothing has happened before: no log
record, no request construction, no transport call. -/
theorem marshal_error_returned_before_any_request {β : Type} (h : HTTPClient)
    (P : Platform β) (p : Nat) (r : Request β) (b : β) (e : String)
    (hb : r.Body = some b) (hm : P.Marshal b = .error e) :
    (h.Request P p r).outcome = .returned none (some e)
      ∧ (h.Request P p r).trace = [] := by
  rw [request_of_fail h P p r e (prepare_error P h r b e hb hm)]
  exact ⟨rfl, rfl⟩

theorem marshal_error_returned_before_any_request_witness :
    ((New 10000).Request (echoServer [] []) 7
        { sampleRequest with Body := some Payload.channel }).outcome
        = .returned none (some "json: unsupported type: chan int")
      ∧ ((New 10000).Request (echoServer [] []) 7
          { sampleRequest with Body := some Payload.channel }).trace = [] :=
  marshal_error_returned_before_any_request (New 10000) (echoServer [] []) 7
    { sampleRequest with Body := some Payload.channel } Payload.channel
    "json: unsupported type: chan int" rfl rfl

/-- C5: for every call that returns a response, the response's Body is all the bytes read
from the transport's response body (there is no dependence on the limit or on
LogResponseBody), StatusCode and Headers are the transport response's, Request is the
pointer that was passed in, and the error is nil. -/
theorem response_carries_transport_result {β : Type} (h : HTTPClient) (P : Platform β)
    (p : Nat) (r : Request β) (resp : Response) (err : Option String)
    (hret : (h.Request P p r).outcome = .returned (some resp) err) :
    err = none ∧ resp.Request = p
      ∧ ∃ q hr, sent (h.Request P p r).trace = [q] ∧ P.Do q = .ok hr
          ∧ hr.Body.ReadAll = .ok resp.Body ∧ hr.Body.Close = none
          ∧ resp.StatusCode = hr.StatusCode ∧ resp.Headers = hr.Header := by
  have hend := request_ending h P p r
  revert hret
  generalize h.Request P p r = res at hend ⊢
  cases hend with
  | marshalError e hp => intro hret; cases hret
  | requestPanic hp => intro hret; cases hret
  | newRequestError body bs e hp hn => intro hret; cases hret
  | doError body bs u e hp hn hd => intro hret; cases hret
  | readError body bs u resp1 e hp hn hd hr => intro hret; cases hret
  | closeError body bs u resp1 respBytes e hp hn hd hr hc => intro hret; cases hret
  | responsePanic body bs u resp1 respBytes hp hn hd hr hc hs => intro hret; cases hret
  | success body bs u resp1 respBytes logged hp hn hd hr hc hs =>
    intro hret
    cases hret
    refine ⟨rfl, rfl, outgoing r u body, resp1, ?_, hd, hr, hc, rfl, rfl⟩
    simp [sendTrace, sent]

theorem response_carries_transport_result_witness :
    ((New 3).Request
        (echoServer [(contentType, [applicationJSON])] (str "\x7b\"test\":\"test\"\x7d")) 7
        sampleRequest).outcome
        = .returned
            (some { StatusCode := 200, Body := str "\x7b\"test\":\"test\"\x7d",
                    Headers := [(contentType, [applicationJSON])], Request := 7 })
            none
      ∧ ({ StatusCode := 200, Body := str "\x7b\"test\":\"test\"\x7d",
           Headers := [(contentType, [applicationJSON])], Request := 7 } : Response).Request
          = 7 := by
  have h := response_carries_transport_result (New 3)
    (echoServer [(contentType, [applicationJSON])] (str "\x7b\"test\":\"test\"\x7d")) 7
    sampleRequest
    { StatusCode := 200, Body := str "\x7b\"test\":\"test\"\x7d",
      Headers := [(contentType, [applicationJSON])], Request := 7 } none rfl
  exact ⟨rfl, h.2.1⟩

theorem prepare_flag_off {β : Type} (P : Platform β) (h : HTTPClient) (r : Request β)
    (hlog : r.LogRequestBody = false) :
    prepare P h r ≠ .panic
      ∧ ∀ body bs, prepare P h r = .ok body bs → bs = [] := by
  cases hb : r.Body with
  | none => simp [prepare, hb]
  | some b =>
    cases hm : P.Marshal b with
    | error e => simp [prepare, hb, hm]
    | ok payload =>
      simp only [prepare, hb, hm, hlog]
      constructor
      · simp
      · intro body bs hp
        simp at hp
        exact hp.2

theorem prepare_fail_inv {β : Type} (P : Platform β) (h : HTTPClient) (r : Request β)
    (e : String) (hp : prepare P h r = .fail e) :
    ∃ b, r.Body = some b ∧ P.Marshal b = .error e := by
  cases hb : r.Body with
  | none => simp [prepare, hb] at hp
  | some b =>
    cases hm : P.Marshal b with
    | error e1 =>
      simp [prepare, hb, hm] at hp
      exact ⟨b, rfl, by rw [hm, hp]⟩
    | ok payload =>
      simp only [prepare, hb, hm] at hp
      split at hp
      · split at hp <;> cases hp
      · cases hp

/-- C8: with LogRequestBody false every "HTTPClient request" record has the empty string
as Body, and one such record is written whenever the Body is nil or encodable; with
LogResponseBody false every "HTTPClient response" record has the empty string as Body,
and one such record is written whenever a response is returned. Neither depends on the
limit, on the body sizes or on the other flag. -/
theorem log_body_empty_when_flag_off {β : Type} (h : HTTPClient) (P : Platform β)
    (p : Nat) (r : Request β) :
    (r.LogRequestBody = false →
        (∀ s ∈ requestLogBodies (h.Request P p r).trace, s = [])
          ∧ ((∀ b e, r.Body = some b → P.Marshal b ≠ .error e) →
              requestLogBodies (h.Request P p r).trace = [[]]))
      ∧ (r.LogResponseBody = false →
          (∀ s ∈ responseLogBodies (h.Request P p r).trace, s = [])
            ∧ (∀ resp err, (h.Request P p r).outcome = .returned (some resp) err →
                responseLogBodies (h.Request P p r).trace = [[]])) := by
  have hend := request_ending h P p r
  generalize h.Request P p r = res at hend ⊢
  constructor
  · intro hlog
    have hoff := prepare_flag_off P h r hlog
    cases hend with
    | marshalError e hp =>
      obtain ⟨b, hb, hm⟩ := prepare_fail_inv P h r e hp
      exact ⟨by simp [requestLogBodies], fun hne => absurd hm (hne b e hb)⟩
    | requestPanic hp => exact absurd hp hoff.1
    | newRequestError body bs e hp hn =>
      have := hoff.2 body bs hp; subst this; simp [requestLogBodies]
    | doError body bs u e hp hn hd =>
      have := hoff.2 body bs hp; subst this; simp [requestLogBodies, sendTrace]
    | readError body bs u resp e hp hn hd hr =>
      have := hoff.2 body bs hp; subst this; simp [requestLogBodies, sendTrace]
    | closeError body bs u resp respBytes e hp hn hd hr hc =>
      have := hoff.2 body bs hp; subst this; simp [requestLogBodies, sendTrace]
    | responsePanic body bs u resp respBytes hp hn hd hr hc hs =>
      have := hoff.2 body bs hp; subst this; simp [requestLogBodies, sendTrace]
    | success body bs u resp respBytes logged hp hn hd hr hc hs =>
      have := hoff.2 body bs hp; subst this; simp [requestLogBodies, sendTrace]
  · intro hlog
    cases hend with
    | marshalError e hp => simp [responseLogBodies]
    | requestPanic hp => simp [responseLogBodies]
    | newRequestError body bs e hp hn => simp [responseLogBodies]
    | doError body bs u e hp hn hd => simp [responseLogBodies, sendTrace]
    | readError body bs u resp e hp hn hd hr => simp [responseLogBodies, sendTrace]
    | closeError body bs u resp respBytes e hp hn hd hr hc =>
      simp [responseLogBodies, sendTrace]
    | responsePanic body bs u resp respBytes hp hn hd hr hc hs =>
      simp [responseLogBodies, sendTrace]
    | success body bs u resp respBytes logged hp hn hd hr hc hs =>
      simp only [hlog, Bool.false_eq_true, if_false, Option.some.injEq] at hs
      subst hs
      simp [responseLogBodies, sendTrace]

theorem log_body_empty_when_flag_off_witness :
    requestLogBodies
        ((New 2).Request (echoServer [] (str "0123456789")) 7
          { sampleRequest with LogRequestBody := false, LogResponseBody := false }).trace
        = [[]]
      ∧ responseLogBodies
          ((New 2).Request (echoServer [] (str "0123456789")) 7
            { sampleRequest with LogRequestBody := false, LogResponseBody := false }).trace
          = [[]] := by
  have h := log_body_empty_when_flag_off (New 2) (echoServer [] (str "0123456789")) 7
    { sampleRequest with LogRequestBody := false, LogResponseBody := false }
  refine ⟨(h.1 rfl).2 ?_, (h.2 rfl).2 _ none rfl⟩
  intro b e hb hm
  cases hb
  cases hm

/-! ### Headers, body and query of the outgoing request -/

theorem mapIndex_mapAssign_self (m : Values) (k : Bytes) (v : List Bytes) :
    mapIndex (mapAssign m k v) k = some v := by
  induction m with
  | nil => simp [mapAssign, mapIndex]
  | cons kv m ih =>
    obtain ⟨k1, v1⟩ := kv
    by_cases hk : k1 = k
    · simp [mapAssign, mapIndex, hk]
    · simp [mapAssign, mapIndex, hk, ih]

theorem mapIndex_mapAssign_ne (m : Values) (k k2 : Bytes) (v : List Bytes) (hne : k2 ≠ k) :
    mapIndex (mapAssign m k v) k2 = mapIndex m k2 := by
  induction m with
  | nil => simp [mapAssign, mapIndex, Ne.symm hne]
  | cons kv m ih =>
    obtain ⟨k1, v1⟩ := kv
    by_cases hk : k1 = k
    · have hk2 : ¬ k1 = k2 := fun h2 => hne (h2.symm.trans hk)
      simp [mapAssign, mapIndex, hk, Ne.symm hne, hk2]
    · by_cases hk2 : k1 = k2
      · subst hk2
        simp [mapAssign, mapIndex, hk]
      · simp [mapAssign, mapIndex, hk, hk2, ih]

/-- Whatever was sent is the one request `outgoing`, built from a parsed URL and the
body given to `http.NewRequest`. -/
theorem sent_inv {β : Type} (h : HTTPClient) (P : Platform β) (p : Nat) (r : Request β)
    (q : HTTPRequest) (hq : q ∈ sent (h.Request P p r).trace) :
    ∃ u body bs, prepare P h r = .ok body bs ∧ P.NewRequest r.Method r.URL = .ok u
      ∧ q = outgoing r u body ∧ sent (h.Request P p r).trace = [q] := by
  have hend := request_ending h P p r
  revert hq
  generalize h.Request P p r = res at hend ⊢
  cases hend with
  | marshalError e hp => simp [sent]
  | requestPanic hp => simp [sent]
  | newRequestError body bs e hp hn => simp [sent]
  | doError body bs u e hp hn hd =>
    simp only [sendTrace, sent, List.mem_singleton]
    intro hq; exact ⟨u, body, bs, hp, hn, hq, by rw [hq]⟩
  | readError body bs u resp e hp hn hd hr =>
    simp only [sendTrace, sent, List.cons_append, List.nil_append, List.mem_singleton]
    intro hq; exact ⟨u, body, bs, hp, hn, hq, by rw [hq]⟩
  | closeError body bs u resp respBytes e hp hn hd hr hc =>
    simp only [sendTrace, sent, List.cons_append, List.nil_append, List.mem_singleton]
    intro hq; exact ⟨u, body, bs, hp, hn, hq, by rw [hq]⟩
  | responsePanic body bs u resp respBytes hp hn hd hr hc hs =>
    simp only [sendTrace, sent, List.cons_append, List.nil_append, List.mem_singleton]
    intro hq; exact ⟨u, body, bs, hp, hn, hq, by rw [hq]⟩
  | success body bs u resp respBytes logged hp hn hd hr hc hs =>
    simp only [sendTrace, sent, List.cons_append, List.nil_append, List.mem_singleton]
    intro hq; exact ⟨u, body, bs, hp, hn, hq, by rw [hq]⟩

/-- Once the payload is prepared and request construction passes, the request is sent. -/
theorem sent_of_constructed {β : Type} (h : HTTPClient) (P : Platform β) (p : Nat)
    (r : Request β) (body : Option Bytes) (bs : Bytes) (u : BuiltRequest)
    (hp : prepare P h r = .ok body bs) (hn : P.NewRequest r.Method r.URL = .ok u) :
    sent (h.Request P p r).trace = [outgoing r u body] := by
  have hend := request_ending h P p r
  generalize h.Request P p r = res at hend ⊢
  cases hend with
  | marshalError e hp1 => rw [hp] at hp1; cases hp1
  | requestPanic hp1 => rw [hp] at hp1; cases hp1
  | newRequestError body1 bs1 e hp1 hn1 => rw [hn] at hn1; cases hn1
  | doError body1 bs1 u1 e hp1 hn1 hd =>
    rw [hp] at hp1; cases hp1; rw [hn] at hn1; cases hn1; simp [sendTrace, sent]
  | readError body1 bs1 u1 resp e hp1 hn1 hd hr =>
    rw [hp] at hp1; cases hp1; rw [hn] at hn1; cases hn1; simp [sendTrace, sent]
  | closeError body1 bs1 u1 resp respBytes e hp1 hn1 hd hr hc =>
    rw [hp] at hp1; cases hp1; rw [hn] at hn1; cases hn1; simp [sendTrace, sent]
  | responsePanic body1 bs1 u1 resp respBytes hp1 hn1 hd hr hc hs =>
    rw [hp] at hp1; cases hp1; rw [hn] at hn1; cases hn1; simp [sendTrace, sent]
  | success body1 bs1 u1 resp respBytes logged hp1 hn1 hd hr hc hs =>
    rw [hp] at hp1; cases hp1; rw [hn] at hn1; cases hn1; simp [sendTrace, sent]

/-- C4: for every request that reaches the send step, the outgoing header map is the
caller's Headers with the key Content-Type assigned the single value application/json:
that key holds exactly that value, every other key holds what the caller's map holds
(nothing is added or kept from the freshly built request), and with nil Headers the map
is exactly Content-Type: application/json. -/
theorem outgoing_headers_are_callers_with_content_type {β : Type} (h : HTTPClient)
    (P : Platform β) (p : Nat) (r : Request β) (q : HTTPRequest)
    (hq : q ∈ sent (h.Request P p r).trace) :
    q.Header = mapAssign (r.Headers.getD []) contentType [applicationJSON]
      ∧ mapIndex q.Header contentType = some [applicationJSON]
      ∧ (∀ k, k ≠ contentType → mapIndex q.Header k = mapIndex (r.Headers.getD []) k)
      ∧ (r.Headers = none → q.Header = [(contentType, [applicationJSON])]) := by
  obtain ⟨u, body, bs, _, _, hq1, _⟩ := sent_inv h P p r q hq
  subst hq1
  refine ⟨rfl, mapIndex_mapAssign_self _ _ _, ?_, ?_⟩
  · intro k hk
    exact mapIndex_mapAssign_ne _ _ _ _ hk
  · intro hnil
    simp [outgoing, hnil, mapAssign]

theorem outgoing_headers_are_callers_with_content_type_witness :
    ({ Method := str "GET",
       URL := { Scheme := str "http", Host := str "127.0.0.1",
                Path := str "http://127.0.0.1/x?stale=1", RawQuery := str "q=a+b" },
       Header := [(str "Authorization", [str "Bearer token"]),
                  (contentType, [applicationJSON])],
       Body := some (str "\x7b\"test\":\"test\"\x7d") } : HTTPRequest)
        ∈ sent ((New 10000).Request (echoServer [] []) 7 sampleRequest).trace
      ∧ mapIndex
          [(str "Authorization", [str "Bearer token"]), (contentType, [applicationJSON])]
          (str "Authorization")
          = mapIndex (sampleRequest.Headers.getD []) (str "Authorization") := by
  have hmem :
      ({ Method := str "GET",
         URL := { Scheme := str "http", Host := str "127.0.0.1",
                  Path := str "http://127.0.0.1/x?stale=1", RawQuery := str "q=a+b" },
         Header := [(str "Authorization", [str "Bearer token"]),
                    (contentType, [applicationJSON])],
         Body := some (str "\x7b\"test\":\"test\"\x7d") } : HTTPRequest)
        ∈ sent ((New 10000).Request (echoServer [] []) 7 sampleRequest).trace :=
    List.mem_singleton.mpr rfl
  have h := outgoing_headers_are_callers_with_content_type (New 10000) (echoServer [] []) 7
    sampleRequest _ hmem
  exact ⟨hmem, h.2.2.1 (str "Authorization") (by decide)⟩

theorem prepare_ok_inv {β : Type} (P : Platform β) (h : HTTPClient) (r : Request β)
    (b : β) (payload : Bytes) (hb : r.Body = some b) (hm : P.Marshal b = .ok payload)
    (body : Option Bytes) (bs : Bytes) (hp : prepare P h r = .ok body bs) :
    body = some payload := by
  simp only [prepare, hb, hm] at hp
  split at hp
  · split at hp
    · cases hp
    · cases hp; rfl
  · cases hp; rfl

theorem prepare_ok_of_quiet_or_nonneg {β : Type} (P : Platform β) (h : HTTPClient)
    (r : Request β) (b : β) (payload : Bytes) (hb : r.Body = some b)
    (hm : P.Marshal b = .ok payload)
    (hsafe : 0 ≤ h.maxLogsBodyChars ∨ r.LogRequestBody = false) :
    ∃ bs, prepare P h r = .ok (some payload) bs := by
  cases hlog : r.LogRequestBody with
  | false => exact ⟨[], prepare_quiet P h r b payload hb hm hlog⟩
  | true =>
    rcases hsafe with hL | hoff
    · exact ⟨_, prepare_logged P h.maxLogsBodyChars hL r b payload hb hm hlog⟩
    · rw [hlog] at hoff; cases hoff

/-- C6: for a request with a non-nil encodable Body, every request handed to the transport
carries exactly the full JSON encoding as its body, for every limit and both log flags,
and one is handed over whenever request construction passes (and the limit is not
negative or the request body is not logged); for a request with a nil Body, every
request handed to the transport has no body and has Content-Type set to
application/json, and one is handed over whenever request construction passes. -/
theorem transport_body_is_full_encoding {β : Type} (h : HTTPClient) (P : Platform β)
    (p : Nat) (r : Request β) :
    (∀ b payload, r.Body = some b → P.Marshal b = .ok payload →
        (∀ q ∈ sent (h.Request P p r).trace, q.Body = some payload)
          ∧ (∀ u, (0 ≤ h.maxLogsBodyChars ∨ r.LogRequestBody = false) →
              P.NewRequest r.Method r.URL = .ok u →
              ∃ q, sent (h.Request P p r).trace = [q] ∧ q.Body = some payload))
      ∧ (r.Body = none →
          (∀ q ∈ sent (h.Request P p r).trace,
              q.Body = none ∧ mapIndex q.Header contentType = some [applicationJSON])
            ∧ (∀ u, P.NewRequest r.Method r.URL = .ok u →
                ∃ q, sent (h.Request P p r).trace = [q] ∧ q.Body = none
                  ∧ mapIndex q.Header contentType = some [applicationJSON])) := by
  constructor
  · intro b payload hb hm
    constructor
    · intro q hq
      obtain ⟨u, body, bs, hp, _, hq1, _⟩ := sent_inv h P p r q hq
      rw [hq1]
      exact prepare_ok_inv P h r b payload hb hm body bs hp
    · intro u hsafe hn
      obtain ⟨bs, hp⟩ := prepare_ok_of_quiet_or_nonneg P h r b payload hb hm hsafe
      exact ⟨_, sent_of_constructed h P p r (some payload) bs u hp hn, rfl⟩
  · intro hnil
    have hp := prepare_nil P h r hnil
    constructor
    · intro q hq
      obtain ⟨u, body, bs, hp1, _, hq1, _⟩ := sent_inv h P p r q hq
      rw [hp] at hp1
      cases hp1
      rw [hq1]
      exact ⟨rfl, mapIndex_mapAssign_self _ _ _⟩
    · intro u hn
      exact ⟨_, sent_of_constructed h P p r none [] u hp hn, rfl,
        mapIndex_mapAssign_self _ _ _⟩

theorem transport_body_is_full_encoding_witness :
    (∃ q, sent ((New 3).Request (echoServer [] []) 7 sampleRequest).trace = [q]
        ∧ q.Body = some (str "\x7b\"test\":\"test\"\x7d"))
      ∧ (∃ q, sent ((New 3).Request (echoServer [] []) 7
              { sampleRequest with Body := none, Headers := none }).trace = [q]
          ∧ q.Body = none
          ∧ mapIndex q.Header contentType = some [applicationJSON]) := by
  have h1 := transport_body_is_full_encoding (New 3) (echoServer [] []) 7 sampleRequest
  have h2 := transport_body_is_full_encoding (New 3) (echoServer [] []) 7
    { sampleRequest with Body := none, Headers := none }
  exact ⟨(h1.1 _ _ rfl rfl).2 _ (Or.inl (by decide)) rfl, (h2.2 rfl).2 _ rfl⟩

/-- A construction event in the trace comes from a prepared payload. -/
theorem newRequest_inv {β : Type} (h : HTTPClient) (P : Platform β) (p : Nat)
    (r : Request β) (m url : Bytes) (body : Option Bytes)
    (hev : Event.newRequest m url body ∈ (h.Request P p r).trace) :
    ∃ bs, prepare P h r = .ok body bs := by
  have hend := request_ending h P p r
  revert hev
  generalize h.Request P p r = res at hend ⊢
  cases hend with
  | marshalError e hp => simp
  | requestPanic hp => simp
  | newRequestError body1 bs e hp hn =>
    simp only [List.mem_cons, List.mem_singleton, Event.newRequest.injEq, List.not_mem_nil,
      or_false, false_or, reduceCtorEq]
    rintro ⟨_, _, rfl⟩; exact ⟨bs, hp⟩
  | doError body1 bs u e hp hn hd =>
    simp only [sendTrace, List.mem_cons, List.mem_singleton, Event.newRequest.injEq,
      List.not_mem_nil, or_false, false_or, reduceCtorEq]
    rintro ⟨_, _, rfl⟩; exact ⟨bs, hp⟩
  | readError body1 bs u resp e hp hn hd hr =>
    simp only [sendTrace, List.cons_append, List.nil_append, List.mem_cons,
      List.mem_singleton, Event.newRequest.injEq, List.not_mem_nil, or_false, false_or,
      reduceCtorEq]
    rintro ⟨_, _, rfl⟩; exact ⟨bs, hp⟩
  | closeError body1 bs u resp respBytes e hp hn hd hr hc =>
    simp only [sendTrace, List.cons_append, List.nil_append, List.mem_cons,
      List.mem_singleton, Event.newRequest.injEq, List.not_mem_nil, or_false, false_or,
      reduceCtorEq]
    rintro ⟨_, _, rfl⟩; exact ⟨bs, hp⟩
  | responsePanic body1 bs u resp respBytes hp hn hd hr hc hs =>
    simp only [sendTrace, List.cons_append, List.nil_append, List.mem_cons,
      List.mem_singleton, Event.newRequest.injEq, List.not_mem_nil, or_false, false_or,
      reduceCtorEq]
    rintro ⟨_, _, rfl⟩; exact ⟨bs, hp⟩
  | success body1 bs u resp respBytes logged hp hn hd hr hc hs =>
    simp only [sendTrace, List.cons_append, List.nil_append, List.mem_cons,
      List.mem_singleton, Event.newRequest.injEq, List.not_mem_nil, or_false, false_or,
      reduceCtorEq]
    rintro ⟨_, _, rfl⟩; exact ⟨bs, hp⟩

/-- C10: whenever request construction is attempted and passes, exactly one request goes
out, and it is the parsed URL with its query string replaced by the URL-encoding of
Params alone (whatever query the parsed URL carried is discarded); every outgoing request
has the encoding of Params as its query string, which is empty when Params is nil or
empty. -/
theorem query_is_encoded_params {β : Type} (h : HTTPClient) (P : Platform β) (p : Nat)
    (r : Request β) :
    (∀ m url body u, Event.newRequest m url body ∈ (h.Request P p r).trace →
        P.NewRequest r.Method r.URL = .ok u →
        ∃ q, sent (h.Request P p r).trace = [q]
          ∧ q.URL = { u.URL with RawQuery := Encode (r.Params.getD []) })
      ∧ (∀ q ∈ sent (h.Request P p r).trace,
          q.URL.RawQuery = Encode (r.Params.getD [])
            ∧ ((r.Params = none ∨ r.Params = some []) → q.URL.RawQuery = [])) := by
  constructor
  · intro m url body u hev hn
    obtain ⟨bs, hp⟩ := newRequest_inv h P p r m url body hev
    exact ⟨_, sent_of_constructed h P p r body bs u hp hn, rfl⟩
  · intro q hq
    obtain ⟨u, body, bs, _, _, hq1, _⟩ := sent_inv h P p r q hq
    subst hq1
    refine ⟨rfl, ?_⟩
    rintro (hnil | hempty)
    · simp [outgoing, hnil, Encode]
    · simp [outgoing, hempty, Encode]

theorem query_is_encoded_params_witness :
    (∃ q, sent ((New 3).Request (echoServer [] []) 7 sampleRequest).trace = [q]
        ∧ q.URL = { Scheme := str "http", Host := str "127.0.0.1",
                    Path := str "http://127.0.0.1/x?stale=1", RawQuery := str "q=a+b" })
      ∧ (∃ q, sent ((New 3).Request (echoServer [] []) 7
              { sampleRequest with Params := none }).trace = [q]
          ∧ q.URL.RawQuery = []) := by
  have h1 := query_is_encoded_params (New 3) (echoServer [] []) 7 sampleRequest
  have h2 := query_is_encoded_params (New 3) (echoServer [] []) 7
    { sampleRequest with Params := none }
  refine ⟨h1.1 (str "GET") (str "http://127.0.0.1/x?stale=1")
      (some (str "\x7b\"test\":\"test\"\x7d")) _ (by decide) rfl, ?_⟩
  obtain ⟨q, hq, _⟩ := h2.1 (str "GET") (str "http://127.0.0.1/x?stale=1")
      (some (str "\x7b\"test\":\"test\"\x7d")) _ (by decide) rfl
  exact ⟨q, hq, (h2.2 q (by rw [hq]; exact List.mem_singleton.mpr rfl)).2 (Or.inl rfl)⟩

/-! ### The caller's request after the call -/

/-- C7 as stated fails: after a call with the headers of TestRequestWithHeaders the
caller's Headers map holds a Content-Type entry it did not hold before. -/
theorem request_mutates_caller_headers_counterexample :
    ¬ (∀ (h : HTTPClient) (P : Platform Payload) (p : Nat) (r : Request Payload),
        (h.Request P p r).request = r)
      ∧ sampleRequest.Headers = some [(str "Authorization", [str "Bearer token"])]
      ∧ ((New 10000).Request (echoServer [] []) 7 sampleRequest).request.Headers
          = some [(str "Authorization", [str "Bearer token"]),
                  (str "Content-Type", [str "application/json"])] := by
  refine ⟨?_, rfl, rfl⟩
  intro hall
  have h := congrArg Request.Headers (hall (New 10000) (echoServer [] []) 7 sampleRequest)
  revert h
  decide

/-- C7, amended: every field of the caller's request other than Headers is the same after
the call; when Headers is nil, or when no request was handed to the transport, the whole
request is the same; when Headers is non-nil and a request was handed to the transport,
the caller's Headers map has Content-Type assigned `[application/json]` and every other
key holds what it held before. -/
theorem request_changes_only_content_type_entry {β : Type} (h : HTTPClient)
    (P : Platform β) (p : Nat) (r : Request β) :
    ((h.Request P p r).request.Method = r.Method
        ∧ (h.Request P p r).request.URL = r.URL
        ∧ (h.Request P p r).request.Body = r.Body
        ∧ (h.Request P p r).request.Params = r.Params
        ∧ (h.Request P p r).request.LogRequestBody = r.LogRequestBody
        ∧ (h.Request P p r).request.LogResponseBody = r.LogResponseBody)
      ∧ (r.Headers = none → (h.Request P p r).request = r)
      ∧ (sent (h.Request P p r).trace = [] → (h.Request P p r).request = r)
      ∧ (∀ m, r.Headers = some m → sent (h.Request P p r).trace ≠ [] →
          (h.Request P p r).request.Headers
              = some (mapAssign m contentType [applicationJSON])
            ∧ mapIndex (mapAssign m contentType [applicationJSON]) contentType
                = some [applicationJSON]
            ∧ ∀ k, k ≠ contentType →
                mapIndex (mapAssign m contentType [applicationJSON]) k = mapIndex m k) := by
  have hnil : r.Headers = none → afterHeaders r = r := by
    intro hh
    cases r
    simp only at hh
    simp [afterHeaders, hh]
  have hmaps : ∀ m, mapIndex (mapAssign m contentType [applicationJSON]) contentType
        = some [applicationJSON]
      ∧ ∀ k, k ≠ contentType →
          mapIndex (mapAssign m contentType [applicationJSON]) k = mapIndex m k :=
    fun m => ⟨mapIndex_mapAssign_self _ _ _, fun k hk => mapIndex_mapAssign_ne _ _ _ _ hk⟩
  have hend := request_ending h P p r
  generalize h.Request P p r = res at hend ⊢
  cases hend with
  | marshalError e hp =>
    exact ⟨⟨rfl, rfl, rfl, rfl, rfl, rfl⟩, fun _ => rfl, fun _ => rfl,
      fun m _ hs => absurd rfl hs⟩
  | requestPanic hp =>
    exact ⟨⟨rfl, rfl, rfl, rfl, rfl, rfl⟩, fun _ => rfl, fun _ => rfl,
      fun m _ hs => absurd rfl hs⟩
  | newRequestError body bs e hp hn =>
    exact ⟨⟨rfl, rfl, rfl, rfl, rfl, rfl⟩, fun _ => rfl, fun _ => rfl,
      fun m _ hs => absurd rfl hs⟩
  | doError body bs u e hp hn hd =>
    refine ⟨⟨rfl, rfl, rfl, rfl, rfl, rfl⟩, hnil, ?_, ?_⟩
    · simp [sendTrace, sent]
    · intro m hm _
      exact ⟨by simp [afterHeaders, hm], hmaps m⟩
  | readError body bs u resp e hp hn hd hr =>
    refine ⟨⟨rfl, rfl, rfl, rfl, rfl, rfl⟩, hnil, ?_, ?_⟩
    · simp [sendTrace, sent]
    · intro m hm _
      exact ⟨by simp [afterHeaders, hm], hmaps m⟩
  | closeError body bs u resp respBytes e hp hn hd hr hc =>
    refine ⟨⟨rfl, rfl, rfl, rfl, rfl, rfl⟩, hnil, ?_, ?_⟩
    · simp [sendTrace, sent]
    · intro m hm _
      exact ⟨by simp [afterHeaders, hm], hmaps m⟩
  | responsePanic body bs u resp respBytes hp hn hd hr hc hs =>
    refine ⟨⟨rfl, rfl, rfl, rfl, rfl, rfl⟩, hnil, ?_, ?_⟩
    · simp [sendTrace, sent]
    · intro m hm _
      exact ⟨by simp [afterHeaders, hm], hmaps m⟩
  | success body bs u resp respBytes logged hp hn hd hr hc hs =>
    refine ⟨⟨rfl, rfl, rfl, rfl, rfl, rfl⟩, hnil, ?_, ?_⟩
    · simp [sendTrace, sent]
    · intro m hm _
      exact ⟨by simp [afterHeaders, hm], hmaps m⟩

theorem request_changes_only_content_type_entry_witness :
    ((New 10000).Request (echoServer [] []) 7 sampleRequest).request.Headers
        = some (mapAssign [(str "Authorization", [str "Bearer token"])] contentType
            [applicationJSON])
      ∧ ((New 10000).Request (echoServer [] []) 7
          { sampleRequest with Method := str "(INVALID)" }).request
          = { sampleRequest with Method := str "(INVALID)" } := by
  have h1 := request_changes_only_content_type_entry (New 10000) (echoServer [] []) 7
    sampleRequest
  have h2 := request_changes_only_content_type_entry (New 10000) (echoServer [] []) 7
    { sampleRequest with Method := str "(INVALID)" }
  exact ⟨(h1.2.2.2 _ rfl (by decide)).1, h2.2.2.1 rfl⟩

/-! ### Errors are passed through -/

theorem prepare_fail_encode {β : Type} (P : Platform β) (h : HTTPClient) (r : Request β)
    (e : String) (hp : prepare P h r = .fail e) : encode P r = .error e := by
  obtain ⟨b, hb, hm⟩ := prepare_fail_inv P h r e hp
  simp [encode, hb, hm]

theorem prepare_ok_encode {β : Type} (P : Platform β) (h : HTTPClient) (r : Request β)
    (body : Option Bytes) (bs : Bytes) (hp : prepare P h r = .ok body bs) :
    encode P r = .ok body := by
  cases hb : r.Body with
  | none =>
    rw [prepare_nil P h r hb] at hp
    cases hp
    simp [encode, hb]
  | some b =>
    cases hm : P.Marshal b with
    | error e => rw [prepare_error P h r b e hb hm] at hp; cases hp
    | ok payload =>
      rw [prepare_ok_inv P h r b payload hb hm body bs hp]
      simp [encode, hb, hm]

theorem prepare_no_panic {β : Type} (P : Platform β) (L : Int) (hL : 0 ≤ L)
    (r : Request β) : prepare P (New L) r ≠ .panic := by
  cases hb : r.Body with
  | none => simp [prepare, hb]
  | some b =>
    cases hm : P.Marshal b with
    | error e => simp [prepare, hb, hm]
    | ok payload =>
      obtain ⟨bs, hp⟩ := prepare_ok_of_quiet_or_nonneg P (New L) r b payload hb hm
        (Or.inl hL)
      rw [hp]
      simp

/-- With a non-negative limit a call ends the way `pipeline` says. -/
theorem request_refines_pipeline {β : Type} (P : Platform β) (L : Int) (hL : 0 ≤ L)
    (p : Nat) (r : Request β) :
    match pipeline P r with
    | .error (s, e) =>
        ((New L).Request P p r).outcome = .returned none (some e)
          ∧ calls ((New L).Request P p r).trace = s.through
    | .ok (resp, respBytes) =>
        ((New L).Request P p r).outcome
            = .returned
                (some { StatusCode := resp.StatusCode, Body := respBytes,
                        Headers := resp.Header, Request := p })
                none
          ∧ calls ((New L).Request P p r).trace = Step.close.through := by
  have hend := request_ending (New L) P p r
  generalize (New L).Request P p r = res at hend ⊢
  cases hend with
  | marshalError e hp =>
    simp [pipeline, prepare_fail_encode P _ r e hp, Except.mapError, bind, Except.bind,
      calls, Step.through]
  | requestPanic hp => exact absurd hp (prepare_no_panic P L hL r)
  | newRequestError body bs e hp hn =>
    simp [pipeline, prepare_ok_encode P _ r body bs hp, hn, Except.mapError, bind,
      Except.bind, calls, Step.through]
  | doError body bs u e hp hn hd =>
    simp [pipeline, prepare_ok_encode P _ r body bs hp, hn, hd, Except.mapError, bind,
      Except.bind, calls, Step.through, sendTrace]
  | readError body bs u resp e hp hn hd hr =>
    simp [pipeline, prepare_ok_encode P _ r body bs hp, hn, hd, hr, Except.mapError, bind,
      Except.bind, calls, Step.through, sendTrace]
  | closeError body bs u resp respBytes e hp hn hd hr hc =>
    simp [pipeline, prepare_ok_encode P _ r body bs hp, hn, hd, hr, hc, Except.mapError,
      bind, Except.bind, calls, Step.through, sendTrace, throw, throwThe,
      MonadExceptOf.throw]
  | responsePanic body bs u resp respBytes hp hn hd hr hc hs =>
    exfalso
    cases hlog : r.LogResponseBody with
    | false => simp [hlog] at hs
    | true => simp [hlog, logString_of_nonneg L hL] at hs
  | success body bs u resp respBytes logged hp hn hd hr hc hs =>
    simp [pipeline, prepare_ok_encode P _ r body bs hp, hn, hd, hr, hc, Except.mapError,
      bind, Except.bind, calls, Step.through, sendTrace, pure, Except.pure]

/-- C9 as stated fails: with the limit -1 and the request body logged, no step fails and
yet the call returns neither a response nor an error, it panics at the slice expression;
with only the response body logged it panics after the response was read and closed. -/
theorem request_panics_on_negative_limit_counterexample :
    ¬ (∀ (h : HTTPClient) (P : Platform Payload) (p : Nat) (r : Request Payload),
        (∃ resp, (h.Request P p r).outcome = .returned (some resp) none)
          ∨ (∃ e, (h.Request P p r).outcome = .returned none (some e)))
      ∧ ((New (-1)).Request (echoServer [] []) 7 sampleRequest).outcome = .panicked
      ∧ ((New (-1)).Request (echoServer [] []) 7 sampleRequest).trace = []
      ∧ ((New (-1)).Request (echoServer [] []) 7
          { sampleRequest with LogRequestBody := false }).outcome = .panicked
      ∧ calls ((New (-1)).Request (echoServer [] []) 7
          { sampleRequest with LogRequestBody := false }).trace = Step.close.through
      ∧ (∃ res, pipeline (echoServer [] []) sampleRequest = .ok res) := by
  refine ⟨?_, rfl, rfl, rfl, rfl, ⟨_, rfl⟩⟩
  intro hall
  have hp : ((New (-1)).Request (echoServer [] []) 7 sampleRequest).outcome = .panicked :=
    rfl
  rcases hall (New (-1)) (echoServer [] []) 7 sampleRequest with ⟨resp, h1⟩ | ⟨e, h1⟩
  · rw [hp] at h1; cases h1
  · rw [hp] at h1; cases h1

/-- C9, amended: for a client built with `New L`, `0 ≤ L`, `Request` returns exactly one
of a response and an error. It returns `(nil, err)` if and only if one of the steps JSON
encoding, request construction, send, body read, body close fails, `err` being the
unchanged error of the first step that fails, and then no later step has run; otherwise it
returns the response built from the transport's answer, with a nil error. -/
theorem request_returns_response_or_first_error {β : Type} (P : Platform β) (L : Int)
    (hL : 0 ≤ L) (p : Nat) (r : Request β) :
    ((∃ resp, ((New L).Request P p r).outcome = .returned (some resp) none)
        ∨ (∃ e, ((New L).Request P p r).outcome = .returned none (some e)))
      ∧ (∀ resp err, ((New L).Request P p r).outcome = .returned resp err →
          (resp = none ↔ err ≠ none))
      ∧ (∀ e, ((New L).Request P p r).outcome = .returned none (some e)
          ↔ ∃ s, pipeline P r = .error (s, e))
      ∧ (∀ s e, pipeline P r = .error (s, e) →
          calls ((New L).Request P p r).trace = s.through)
      ∧ (∀ resp respBytes, pipeline P r = .ok (resp, respBytes) →
          ((New L).Request P p r).outcome
            = .returned
                (some { StatusCode := resp.StatusCode, Body := respBytes,
                        Headers := resp.Header, Request := p })
                none) := by
  have href := request_refines_pipeline P L hL p r
  cases hpipe : pipeline P r with
  | error se =>
    obtain ⟨s, e⟩ := se
    rw [hpipe] at href
    simp only at href
    obtain ⟨hout, hcalls⟩ := href
    refine ⟨Or.inr ⟨e, hout⟩, ?_, ?_, ?_, ?_⟩
    · intro resp err hret
      rw [hout] at hret
      cases hret
      simp
    · intro e1
      rw [hout]
      constructor
      · intro heq
        cases heq
        exact ⟨s, rfl⟩
      · rintro ⟨s1, hs1⟩
        cases hs1
        rfl
    · intro s1 e1 hs1
      cases hs1
      exact hcalls
    · intro resp respBytes hok
      cases hok
  | ok res =>
    obtain ⟨resp0, bytes0⟩ := res
    rw [hpipe] at href
    simp only at href
    obtain ⟨hout, _⟩ := href
    refine ⟨Or.inl ⟨_, hout⟩, ?_, ?_, ?_, ?_⟩
    · intro resp err hret
      rw [hout] at hret
      cases hret
      simp
    · intro e1
      rw [hout]
      constructor
      · intro heq
        cases heq
      · rintro ⟨s1, hs1⟩
        cases hs1
    · intro s1 e1 hs1
      cases hs1
    · intro resp respBytes hok
      cases hok
      exact hout

theorem request_returns_response_or_first_error_witness :
    (0 : Int) ≤ 3
      ∧ ((New 3).Request (echoServer [] (str "0123456789")) 7
          { sampleRequest with Method := str "(INVALID)" }).outcome
          = .returned none (some "net/http: invalid method")
      ∧ calls ((New 3).Request (echoServer [] (str "0123456789")) 7
          { sampleRequest with Method := str "(INVALID)" }).trace = [Step.construct]
      ∧ ((New 3).Request (echoServer [] (str "0123456789")) 7 sampleRequest).outcome
          = .returned
              (some { StatusCode := 200, Body := str "0123456789", Headers := [],
                      Request := 7 })
              none := by
  have h1 := request_returns_response_or_first_error (echoServer [] (str "0123456789")) 3
    (by decide) 7 { sampleRequest with Method := str "(INVALID)" }
  have h2 := request_returns_response_or_first_error (echoServer [] (str "0123456789")) 3
    (by decide) 7 sampleRequest
  exact ⟨by decide, (h1.2.2.1 _).mpr ⟨Step.construct, rfl⟩,
    h1.2.2.2.1 Step.construct _ rfl, h2.2.2.2.2 _ _ rfl⟩

end gohttpoison
